import Mathlib

/-!
Verification development for the zukunft futures library.

The library (src/base.rs, src/mpsc.rs) provides:
 - a `Future` trait with a single required method `await(self) -> Output`,
 - `FutureWrap` (the immediate future produced by `lift`),
 - `FutureThen` (the map/then combinator) and `FutureBind` (the bind
   combinator), each storing an inner future and a closure,
 - `ChannelFuture`, a future backed by an `std::sync::mpsc` receiver whose
   `await` does `self.rx.recv().unwrap()`.

Two embeddings are developed here:
 1. a polymorphic shallow embedding of base.rs (structures `FutureWrap`,
    `FutureThen`, `FutureBind` with a `Future` type class), used for the
    purely algebraic properties;
 2. an instrumented deep embedding `EFuture` over Nat values with an explicit
    channel state (`ChanState`) and an event trace, used for the properties
    about channels, evaluation order and closure invocation counts.
-/

namespace Zukunft

universe u v w x

/-- The `Future` trait of base.rs: an associated output type and a consuming
`await` method. -/
class Future (σ : Type u) (Output : outParam (Type v)) where
  await : σ → Output

/-- `FutureWrap<T>(pub T)`: a simple implementation of `Future` that returns
the wrapped object from its `await`. -/
structure FutureWrap (T : Type u) where
  val : T

instance instFutureWrap {T : Type u} : Future (FutureWrap T) T where
  await s := s.val

/-- `FutureThen<F, Func> { inner, closure }`: the result of applying a
function to an original future. -/
structure FutureThen (F : Type u) (Func : Type v) where
  inner : F
  closure : Func

/-- `impl Future for FutureThen`: `await` resolves the inner future, then
applies the stored closure to the result. -/
instance instFutureThen {F : Type u} {T : Type v} {U : Type w} [Future F T] :
    Future (FutureThen F (T → U)) U where
  await s := s.closure (Future.await s.inner)

/-- `FutureBind<OrigFuture, Func> { inner, closure }`: the future returned by
`Future::bind`. -/
structure FutureBind (F : Type u) (Func : Type v) where
  inner : F
  closure : Func

/-- `impl Future for FutureBind`: `await` resolves the inner future, applies
the stored closure to obtain the next future, and resolves that future. -/
instance instFutureBind {F : Type u} {G : Type x} {T : Type v} {U : Type w}
    [Future F T] [Future G U] : Future (FutureBind F (T → G)) U where
  await s := Future.await (s.closure (Future.await s.inner))

/-- `lift<T>(obj: T) -> FutureWrap<T>`: lifts the given object into a
`Future` context. -/
def lift {T : Type u} (obj : T) : FutureWrap T :=
  FutureWrap.mk obj

/-- The free function `then` of base.rs (named `thenFn` because `then` is a
Lean keyword): stores the future and the closure, performing no evaluation. -/
def thenFn {F : Type u} {T : Type v} {U : Type w} [Future F T]
    (future : F) (foo : T → U) : FutureThen F (T → U) :=
  FutureThen.mk future foo

/-- `Future::map`: delegates to `then(self, f)`. -/
def map {F : Type u} {T : Type v} {U : Type w} [Future F T]
    (future : F) (f : T → U) : FutureThen F (T → U) :=
  thenFn future f

/-- `bind<..>(future, foo) -> FutureBind<OrigFuture, Func>`: stores the future
and the closure, performing no evaluation. -/
def bind {F : Type u} {G : Type x} {T : Type v} {U : Type w} [Future F T]
    [Future G U] (future : F) (foo : T → G) : FutureBind F (T → G) :=
  FutureBind.mk future foo

end Zukunft

namespace Zukunft

/-!
## Instrumented deep embedding

Values are specialised to `Nat`. A `ChanState` models the mpsc channels of a
program run: for each channel, the list of sent-but-unreceived values and
whether at least one sender is still alive. `awaitE` evaluates a future
against a state, returning the outcome, the updated state and a trace of
events (channel receives and closure invocations). `AwaitRes.panicked`
models the panic of `recv().unwrap()` on a closed empty channel;
`AwaitRes.blocked` models `recv` blocking with no value and a live sender.
-/

/-- One mpsc channel: pending (sent, unreceived) values in send order, and
whether any `Sender` is still alive. -/
structure Chan where
  queue : List Nat
  senderAlive : Bool
deriving DecidableEq, Repr

/-- The state of all channels of a run, indexed by channel id. -/
structure ChanState where
  chans : List Chan
deriving DecidableEq, Repr

/-- Look up a channel; out-of-range ids behave as a closed empty channel. -/
def getChan (st : ChanState) (cid : Nat) : Chan :=
  st.chans.getD cid (Chan.mk [] false)

/-- Replace the channel at `cid` (no-op when out of range). -/
def setChan (st : ChanState) (cid : Nat) (c : Chan) : ChanState :=
  ChanState.mk (st.chans.set cid c)

/-- `Sender::send`: appends the value to the channel's queue. -/
def send (st : ChanState) (cid : Nat) (v : Nat) : ChanState :=
  setChan st cid (Chan.mk ((getChan st cid).queue ++ [v]) (getChan st cid).senderAlive)

/-- A sequence of sends on the same channel, in order. -/
def sendAll (st : ChanState) (cid : Nat) (vs : List Nat) : ChanState :=
  vs.foldl (fun s vv => send s cid vv) st

/-- Dropping every sender of a channel without sending. -/
def dropSender (st : ChanState) (cid : Nat) : ChanState :=
  setChan st cid (Chan.mk (getChan st cid).queue false)

/-- `ChannelFuture::new`: allocate a fresh channel, returning its id (the
future holds the receiving end, the sender the same id) and the new state. -/
def newChannel (st : ChanState) : Nat × ChanState :=
  (st.chans.length, ChanState.mk (st.chans ++ [Chan.mk [] true]))

/-- Outcome of one `mpsc::Receiver::recv` call. -/
inductive RecvOutcome where
  | ok (v : Nat)
  | closed
  | wouldBlock
deriving DecidableEq, Repr

/-- `Receiver::recv`: returns the first un-read value if one is queued;
with an empty queue it fails if every sender is gone, otherwise blocks. -/
def recvChan (st : ChanState) (cid : Nat) : RecvOutcome × ChanState :=
  match (getChan st cid).queue with
  | [] =>
      if (getChan st cid).senderAlive then (RecvOutcome.wouldBlock, st)
      else (RecvOutcome.closed, st)
  | v :: rest => (RecvOutcome.ok v, setChan st cid (Chan.mk rest (getChan st cid).senderAlive))

/-- Events observable while resolving a future: a value received from a
channel, or a stored closure (identified by a label) invoked on a value. -/
inductive Event where
  | recvEvt (cid : Nat) (v : Nat)
  | invoke (k : Nat) (arg : Nat)
deriving DecidableEq, Repr

/-- Deep syntax of the futures reachable from the library API, over `Nat`
values. Closures carry a label `k` used only by the trace instrumentation. -/
inductive EFuture : Type where
  | chanF (cid : Nat)
  | wrapF (v : Nat)
  | thenF (inner : EFuture) (k : Nat) (fn : Nat → Nat)
  | bindF (inner : EFuture) (k : Nat) (fn : Nat → EFuture)

/-- Result of awaiting a future: a value, a panic (from `recv().unwrap()` on
a closed channel), or an indefinite block (empty channel, live sender, and no
further sends in this run). -/
inductive AwaitRes where
  | ok (v : Nat)
  | panicked
  | blocked
deriving DecidableEq, Repr

/-- `await` of each `Future` implementation, instrumented with the channel
state and the event trace.
`wrapF`: return the wrapped value (`FutureWrap::await`).
`chanF`: `self.rx.recv().unwrap()` (`ChannelFuture::await`).
`thenF`: resolve the inner future, then apply the closure once
(`FutureThen::await`).
`bindF`: resolve the inner future, invoke the closure to obtain the next
future, resolve that future (`FutureBind::await`). Panics and blocks
propagate: a Rust panic unwinds and a block never returns. -/
def awaitE : EFuture → ChanState → AwaitRes × ChanState × List Event
  | EFuture.wrapF v, st => (AwaitRes.ok v, st, [])
  | EFuture.chanF cid, st =>
      match recvChan st cid with
      | (RecvOutcome.ok v, st1) => (AwaitRes.ok v, st1, [Event.recvEvt cid v])
      | (RecvOutcome.closed, st1) => (AwaitRes.panicked, st1, [])
      | (RecvOutcome.wouldBlock, st1) => (AwaitRes.blocked, st1, [])
  | EFuture.thenF inner k fn, st =>
      match awaitE inner st with
      | (AwaitRes.ok v, st1, tr) => (AwaitRes.ok (fn v), st1, tr ++ [Event.invoke k v])
      | (AwaitRes.panicked, st1, tr) => (AwaitRes.panicked, st1, tr)
      | (AwaitRes.blocked, st1, tr) => (AwaitRes.blocked, st1, tr)
  | EFuture.bindF inner k fn, st =>
      match awaitE inner st with
      | (AwaitRes.ok v, st1, tr) =>
          match awaitE (fn v) st1 with
          | (r, st2, tr2) => (r, st2, tr ++ Event.invoke k v :: tr2)
      | (AwaitRes.panicked, st1, tr) => (AwaitRes.panicked, st1, tr)
      | (AwaitRes.blocked, st1, tr) => (AwaitRes.blocked, st1, tr)

/-- `lift` in the deep model. -/
def liftE (v : Nat) : EFuture :=
  EFuture.wrapF v

/-- `then`/`map` in the deep model: pure bookkeeping, stores inner and
closure. -/
def thenE (future : EFuture) (k : Nat) (fn : Nat → Nat) : EFuture :=
  EFuture.thenF future k fn

/-- `bind` in the deep model: pure bookkeeping, stores inner and closure. -/
def bindE (future : EFuture) (k : Nat) (fn : Nat → EFuture) : EFuture :=
  EFuture.bindF future k fn

/-- Number of invocations of the closure labelled `k` in a trace. -/
def countInvoke (k : Nat) : List Event → Nat
  | [] => 0
  | Event.invoke j _ :: rest => (if j = k then 1 else 0) + countInvoke k rest
  | Event.recvEvt _ _ :: rest => countInvoke k rest

/-- The label `k` is not used by any closure of the future. -/
inductive LabelFresh (k : Nat) : EFuture → Prop where
  | chanF (cid : Nat) : LabelFresh k (EFuture.chanF cid)
  | wrapF (v : Nat) : LabelFresh k (EFuture.wrapF v)
  | thenF (inner : EFuture) (j : Nat) (fn : Nat → Nat) :
      LabelFresh k inner → j ≠ k → LabelFresh k (EFuture.thenF inner j fn)
  | bindF (inner : EFuture) (j : Nat) (fn : Nat → EFuture) :
      LabelFresh k inner → j ≠ k → (∀ v, LabelFresh k (fn v)) →
      LabelFresh k (EFuture.bindF inner j fn)

/-- The future contains no `ChannelFuture`: built only from lift, map/then
and bind. -/
inductive ChanFree : EFuture → Prop where
  | wrapF (v : Nat) : ChanFree (EFuture.wrapF v)
  | thenF (inner : EFuture) (k : Nat) (fn : Nat → Nat) :
      ChanFree inner → ChanFree (EFuture.thenF inner k fn)
  | bindF (inner : EFuture) (k : Nat) (fn : Nat → EFuture) :
      ChanFree inner → (∀ v, ChanFree (fn v)) →
      ChanFree (EFuture.bindF inner k fn)

theorem countInvoke_append (k : Nat) (l1 l2 : List Event) :
    countInvoke k (l1 ++ l2) = countInvoke k l1 + countInvoke k l2 := by
  induction l1 with
  | nil => simp [countInvoke]
  | cons e rest ih =>
      cases e with
      | recvEvt cid v => simp [countInvoke, ih]
      | invoke j a => simp [countInvoke, ih]; omega

/-- A closure label fresh for a future is never invoked while awaiting it. -/
theorem fresh_no_invoke {k : Nat} {fu : EFuture} (h : LabelFresh k fu) :
    ∀ st, countInvoke k (awaitE fu st).2.2 = 0 := by
  induction h with
  | chanF cid =>
      intro st
      unfold awaitE
      rcases hr : recvChan st cid with ⟨r, st1⟩
      cases r <;> simp [hr, countInvoke]
  | wrapF v =>
      intro st
      simp [awaitE, countInvoke]
  | thenF inner j fn hinner hj ih =>
      intro st
      unfold awaitE
      rcases ha : awaitE inner st with ⟨r, st1, tr⟩
      have htr : countInvoke k tr = 0 := by
        have := ih st
        rw [ha] at this
        exact this
      cases r <;> simp [ha, countInvoke_append, countInvoke, htr, hj]
  | bindF inner j fn hinner hj hfn ih ihfn =>
      intro st
      unfold awaitE
      rcases ha : awaitE inner st with ⟨r, st1, tr⟩
      have htr : countInvoke k tr = 0 := by
        have := ih st
        rw [ha] at this
        exact this
      cases r with
      | ok v =>
          rcases hb : awaitE (fn v) st1 with ⟨r2, st2, tr2⟩
          have htr2 : countInvoke k tr2 = 0 := by
            have := ihfn v st1
            rw [hb] at this
            exact this
          simp [ha, hb, countInvoke_append, countInvoke, htr, htr2, hj]
      | panicked => simp [ha, htr]
      | blocked => simp [ha, htr]

theorem chans_length_setChan (st : ChanState) (cid : Nat) (c : Chan) :
    (setChan st cid c).chans.length = st.chans.length := by
  simp [setChan]

theorem getChan_setChan_self {st : ChanState} {cid : Nat} (c : Chan)
    (h : cid < st.chans.length) : getChan (setChan st cid c) cid = c := by
  simp [getChan, setChan, List.getD_eq_getElem?_getD, List.getElem?_set_self h]

theorem alive_lt {st : ChanState} {cid : Nat}
    (h : (getChan st cid).senderAlive = true) : cid < st.chans.length := by
  by_contra hge
  push_neg at hge
  rw [getChan, List.getD_eq_default st.chans _ hge] at h
  simp at h

theorem chans_length_send (st : ChanState) (cid v : Nat) :
    (send st cid v).chans.length = st.chans.length := by
  simp [send, setChan]

theorem getChan_send_self {st : ChanState} {cid : Nat} (v : Nat)
    (h : cid < st.chans.length) :
    getChan (send st cid v) cid
      = Chan.mk ((getChan st cid).queue ++ [v]) (getChan st cid).senderAlive := by
  simp [send, getChan_setChan_self _ h]

theorem sendAll_nil (st : ChanState) (cid : Nat) : sendAll st cid [] = st :=
  rfl

theorem sendAll_cons (st : ChanState) (cid v : Nat) (rest : List Nat) :
    sendAll st cid (v :: rest) = sendAll (send st cid v) cid rest :=
  rfl

theorem getChan_sendAll (cid : Nat) (vs : List Nat) :
    ∀ st : ChanState, cid < st.chans.length →
    getChan (sendAll st cid vs) cid
      = Chan.mk ((getChan st cid).queue ++ vs) (getChan st cid).senderAlive := by
  induction vs with
  | nil => intro st h; simp [sendAll_nil]
  | cons v rest ih =>
      intro st h
      have h1 : cid < (send st cid v).chans.length := by
        rw [chans_length_send]; exact h
      rw [sendAll_cons, ih (send st cid v) h1, getChan_send_self v h]
      simp

end Zukunft

namespace Zukunft

/-- Claim C9: identity of lift — for every value x, resolving `lift(x)`
returns exactly x, with no change to the channel state, no events and no
blocking. -/
theorem lift_identity :
    (∀ {T : Type u} (x : T), Future.await (lift x) = x)
      ∧ ∀ (x : Nat) (st : ChanState), awaitE (liftE x) st = (AwaitRes.ok x, st, []) :=
  ⟨fun _ => rfl, fun _ _ => rfl⟩

/-- Claim C8: map composition — resolving `lift(x).map(f).map(g)` yields
`g (f x)`: the transforms are applied in left-to-right order. -/
theorem map_composition {α : Type u} {β : Type v} {γ : Type w}
    (x : α) (f : α → β) (g : β → γ) :
    Future.await (map (map (lift x) f) g) = g (f x) :=
  rfl

/-- Claim C4: bind-with-lift equivalence — resolving
`future.bind(|v| lift(f(v)))` yields the same value as resolving
`future.map(f)`. -/
theorem bind_lift_eq_map {F : Type u} {T : Type v} {U : Type w} [Future F T]
    (m : F) (f : T → U) :
    Future.await (bind m (fun v => lift (f v))) = Future.await (map m f) :=
  rfl

/-- Claim C3: bind is associative — resolving `m.bind(f).bind(g)` is
observationally identical to resolving `m.bind(|v| f(v).bind(g))`. -/
theorem bind_assoc {F : Type u} {G : Type v} {H : Type w}
    {T : Type u2} {U : Type v2} {W : Type w2}
    [Future F T] [Future G U] [Future H W]
    (m : F) (f : T → G) (g : U → H) :
    Future.await (bind (bind m f) g)
      = Future.await (bind m (fun v => bind (f v) g)) :=
  rfl

/-- Claim C1: resolving a ChannelFuture whose paired sender was destroyed
without ever sending reports a distinct failure (`recv().unwrap()` panics,
modelled as `AwaitRes.panicked`): it is not `blocked` and not `ok` with any
default value, and the channel state is unchanged. -/
theorem chan_closed_resolve_fails (st : ChanState) (cid : Nat)
    (h : getChan st cid = Chan.mk [] false) :
    awaitE (EFuture.chanF cid) st = (AwaitRes.panicked, st, []) := by
  have hrecv : recvChan st cid = (RecvOutcome.closed, st) := by
    unfold recvChan
    rw [h]
    rfl
  simp [awaitE, hrecv]

/-- Witness for C1 at a concrete input: a fresh channel whose only sender is
dropped without sending. -/
theorem chan_closed_resolve_fails_witness :
    awaitE (EFuture.chanF 0) (dropSender (ChanState.mk [Chan.mk [] true]) 0)
      = (AwaitRes.panicked, dropSender (ChanState.mk [Chan.mk [] true]) 0, []) :=
  chan_closed_resolve_fails (dropSender (ChanState.mk [Chan.mk [] true]) 0) 0 rfl

/-- Claim C2: resolving `m.bind(f)` performs exactly, in order: resolve the
inner future to v (trace tr1), invoke f on v (the `invoke` event), resolve
the future f produced (trace tr2) and return its result, flattening one
level; and f is never invoked during the inner resolution (so not before the
outer resolve reaches step 2 — `bindE` itself is pure bookkeeping that
evaluates nothing). -/
theorem bind_resolve_steps (inner : EFuture) (k : Nat) (fn : Nat → EFuture)
    (st st1 st2 : ChanState) (v : Nat) (r2 : AwaitRes) (tr1 tr2 : List Event)
    (h1 : awaitE inner st = (AwaitRes.ok v, st1, tr1))
    (h2 : awaitE (fn v) st1 = (r2, st2, tr2))
    (hk : LabelFresh k inner) :
    awaitE (bindE inner k fn) st = (r2, st2, tr1 ++ Event.invoke k v :: tr2)
      ∧ countInvoke k tr1 = 0 := by
  constructor
  · simp [bindE, awaitE, h1, h2]
  · have h0 := fresh_no_invoke hk st
    rw [h1] at h0
    exact h0

/-- Witness for C2 at a concrete input. -/
theorem bind_resolve_steps_witness :
    (awaitE (bindE (EFuture.wrapF 3) 7 (fun w => EFuture.wrapF (w + 1)))
          (ChanState.mk [])
        = (AwaitRes.ok 4, ChanState.mk [], [] ++ Event.invoke 7 3 :: [])
      ∧ countInvoke 7 [] = 0) :=
  bind_resolve_steps (EFuture.wrapF 3) 7 (fun w => EFuture.wrapF (w + 1))
    (ChanState.mk []) (ChanState.mk []) (ChanState.mk []) 3 (AwaitRes.ok 4) [] []
    rfl rfl (LabelFresh.wrapF 3)

/-- Claim C5: for every sequence of values sent on the paired sender, the
ChannelFuture's resolve consumes exactly one value from the channel and
returns the first un-read value sent; all subsequent sends stay queued,
never observed by this (single-use) future. -/
theorem chan_resolves_first_sent (st : ChanState) (cid v : Nat) (vs : List Nat)
    (h : getChan st cid = Chan.mk [] true) :
    awaitE (EFuture.chanF cid) (sendAll st cid (v :: vs))
      = (AwaitRes.ok v,
         setChan (sendAll st cid (v :: vs)) cid (Chan.mk vs true),
         [Event.recvEvt cid v]) := by
  have hlt : cid < st.chans.length := alive_lt (by rw [h])
  have hq : getChan (sendAll st cid (v :: vs)) cid = Chan.mk (v :: vs) true := by
    rw [getChan_sendAll cid (v :: vs) st hlt, h]
    rfl
  have hrecv : recvChan (sendAll st cid (v :: vs)) cid
      = (RecvOutcome.ok v,
         setChan (sendAll st cid (v :: vs)) cid (Chan.mk vs true)) := by
    unfold recvChan
    rw [hq]
  simp [awaitE, hrecv]

/-- Witness for C5 at a concrete input: three values sent, the first is
returned, the rest remain queued. -/
theorem chan_resolves_first_sent_witness :
    awaitE (EFuture.chanF 0) (sendAll (ChanState.mk [Chan.mk [] true]) 0 [1, 2, 3])
      = (AwaitRes.ok 1,
         setChan (sendAll (ChanState.mk [Chan.mk [] true]) 0 [1, 2, 3]) 0
           (Chan.mk [2, 3] true),
         [Event.recvEvt 0 1]) :=
  chan_resolves_first_sent (ChanState.mk [Chan.mk [] true]) 0 1 [2, 3] rfl

/-- Claim C6: order-independence of channel resolution for
`first.bind(|a| second.map(move |b| a*b))`: sending b on second's resolver
before sending a on first's resolver yields the same channel state as the
opposite send order, and resolve returns `a*b` once both sends completed
(e.g. 6 and 10 give 60). -/
theorem channel_order_independent (a b : Nat) :
    awaitE
        (bindE (EFuture.chanF 0) 1
          (fun v1 => thenE (EFuture.chanF 1) 2 (fun v2 => v1 * v2)))
        (send (send (ChanState.mk [Chan.mk [] true, Chan.mk [] true]) 1 b) 0 a)
      = (AwaitRes.ok (a * b),
         ChanState.mk [Chan.mk [] true, Chan.mk [] true],
         [Event.recvEvt 0 a, Event.invoke 1 a, Event.recvEvt 1 b, Event.invoke 2 b])
      ∧ send (send (ChanState.mk [Chan.mk [] true, Chan.mk [] true]) 1 b) 0 a
          = send (send (ChanState.mk [Chan.mk [] true, Chan.mk [] true]) 0 a) 1 b :=
  ⟨rfl, rfl⟩

/-- Claim C7: constructing the map combinator (`thenE`) performs no work;
resolving it first fully resolves the inner future (trace tr1, in which the
transform is never invoked) and then applies the transform exactly once to
the inner result. -/
theorem map_resolve_order (inner : EFuture) (k : Nat) (fn : Nat → Nat)
    (st st1 : ChanState) (v : Nat) (tr1 : List Event)
    (h1 : awaitE inner st = (AwaitRes.ok v, st1, tr1))
    (hk : LabelFresh k inner) :
    awaitE (thenE inner k fn) st
        = (AwaitRes.ok (fn v), st1, tr1 ++ [Event.invoke k v])
      ∧ countInvoke k (tr1 ++ [Event.invoke k v]) = 1
      ∧ countInvoke k tr1 = 0 := by
  have h0 := fresh_no_invoke hk st
  rw [h1] at h0
  refine ⟨by simp [thenE, awaitE, h1], ?_, h0⟩
  rw [countInvoke_append, h0]
  simp [countInvoke]

/-- Witness for C7 at a concrete input. -/
theorem map_resolve_order_witness :
    (awaitE (thenE (EFuture.wrapF 5) 1 (fun w => 2 * w)) (ChanState.mk [])
        = (AwaitRes.ok 10, ChanState.mk [], [] ++ [Event.invoke 1 5])
      ∧ countInvoke 1 ([] ++ [Event.invoke 1 5]) = 1
      ∧ countInvoke 1 ([] : List Event) = 0) :=
  map_resolve_order (EFuture.wrapF 5) 1 (fun w => 2 * w)
    (ChanState.mk []) (ChanState.mk []) 5 [] rfl (LabelFresh.wrapF 5)

/-- Claim C10: a future built only from lift, map/then and bind (no
ChannelFuture) always resolves to a value: its await neither panics nor
blocks and leaves the channel state untouched. -/
theorem pure_resolve_total {fu : EFuture} (h : ChanFree fu) :
    ∀ st : ChanState, ∃ v tr, awaitE fu st = (AwaitRes.ok v, st, tr) := by
  induction h with
  | wrapF v => exact fun st => ⟨v, [], rfl⟩
  | thenF inner k fn hinner ih =>
      intro st
      obtain ⟨v, tr, hv⟩ := ih st
      exact ⟨fn v, tr ++ [Event.invoke k v], by simp [awaitE, hv]⟩
  | bindF inner k fn hinner hfn ih ihfn =>
      intro st
      obtain ⟨v, tr, hv⟩ := ih st
      obtain ⟨v2, tr2, hv2⟩ := ihfn v st
      exact ⟨v2, tr ++ Event.invoke k v :: tr2, by simp [awaitE, hv, hv2]⟩

/-- Witness for C10 at a concrete input: `lift(5).bind(|v| lift(v + 50))`. -/
theorem pure_resolve_total_witness :
    ∃ v tr,
      awaitE (EFuture.bindF (EFuture.wrapF 5) 0 (fun w => EFuture.wrapF (w + 50)))
          (ChanState.mk [])
        = (AwaitRes.ok v, ChanState.mk [], tr) :=
  pure_resolve_total
    (ChanFree.bindF (EFuture.wrapF 5) 0 (fun w => EFuture.wrapF (w + 50))
      (ChanFree.wrapF 5) (fun w => ChanFree.wrapF (w + 50)))
    (ChanState.mk [])

end Zukunft
